import Mathlib

/-!
Shallow embedding of the symbolic-resolution core of the kaffe VM
(kaffe/kaffevm/lookup.c and the forName error shaping of
libraries/clib/native/Class.c), together with theorems checking the
natural-language specification against it.

External collaborators (the class loader `loadClass`/`loadArray`, the
single-class field lookup `lookupClassField`, the signature-arity parser
`countInsAndOuts`, the class-entry table `lookupClassEntry`) are taken as
oracle parameters; internal enums whose headers are not among the sources
(access flags, class states, constant-pool tag numbers) are mirrored as
named constants, with only the properties the code uses relied upon.
-/

namespace Kaffe

/-- Error descriptor (`errorInfo`): the classname of the throwable
(dotted form, as compared by `strcmp` in Class.c), the message, and the
`KERR_EXCEPTION` bit of `type`. -/
structure KError where
  classname : String
  mess : String
  isException : Bool
  deriving DecidableEq, Repr

/-- The native-code slot of a method.  `abstractMethodTrap` stands for the
`throwAbstractMethodError` stub installed by `findMethodLocal`;
`code n` is any other translated/native entry point; `unset` is an
empty slot. -/
inductive NCode where
  | abstractMethodTrap
  | code (n : Nat)
  | unset
  deriving DecidableEq, Repr

/-- Access-flag bit positions (mirroring access.h, which is not among the
sources; only bit identity is used). `ACC_NATIVE = 0x0100` is bit 8,
`ACC_INTERFACE = 0x0200` is bit 9, `ACC_ABSTRACT = 0x0400` is bit 10. -/
def accNativeBit : Nat := 8

def accInterfaceBit : Nat := 9

def accAbstractBit : Nat := 10

/-- Class linkage states (mirroring classMethod.h, not among the sources;
only the ordering and the identity of `FAILED` are used by the code under
study). -/
def CSTATE_FAILED : Nat := 1

def CSTATE_LINKED : Nat := 5

def CSTATE_USABLE : Nat := 8

def CSTATE_COMPLETE : Nat := 9

/-- A method record (`Method`): name, signature, access flags and the
native-code slot that `findMethodLocal` may patch. -/
structure KMethod where
  name : String
  signature : String
  accflags : Nat
  ncode : NCode
  deriving DecidableEq, Repr

/-- A field record (`Field`). -/
structure KField where
  name : String
  accflags : Nat
  deriving DecidableEq, Repr

/-- A loaded class (`Hjava_lang_Class`).  The superclass is a back
reference, modelled structurally; classes are canonicalized by name
(the loader guarantees at most one class per (name, loader) pair, and we
work with a single loader), so pointer identity in the C code is name
identity here.  `interfaces` is the interface list as stored on the class
object (`interfaces[0 .. total_interface_len)`). -/
inductive KClass where
  | mk (name : String) (accflags : Nat) (state : Nat)
       (superclass : Option KClass) (interfaces : List KClass)
       (methods : List KMethod) (fields : List KField)

namespace KClass

def name : KClass → String
  | mk n _ _ _ _ _ _ => n

def accflags : KClass → Nat
  | mk _ a _ _ _ _ _ => a

def state : KClass → Nat
  | mk _ _ s _ _ _ _ => s

def superclass : KClass → Option KClass
  | mk _ _ _ sup _ _ _ => sup

def interfaces : KClass → List KClass
  | mk _ _ _ _ ifs _ _ => ifs

def methods : KClass → List KMethod
  | mk _ _ _ _ _ ms _ => ms

def fields : KClass → List KField
  | mk _ _ _ _ _ _ fs => fs

/-- `CLASS_IS_INTERFACE`. -/
def isIface (c : KClass) : Bool := c.accflags.testBit accInterfaceBit

/-- Replace the method table (used to express the patch in `findMethodLocal`). -/
def withMethods : KClass → List KMethod → KClass
  | mk n a s sup ifs _ fs, ms => mk n a s sup ifs ms fs

end KClass

/-- Constant-pool entry: tag plus payload, as a sum type.  In kaffe the
`data` word of a `Class` entry holds the `Utf8Const*` of the class name
until resolution, then the class pointer once the tag is
`ResolvedClass`. -/
inductive CPEntry where
  | utf8 (s : String)
  | nameAndType (nameIdx sigIdx : Nat)
  | classRef (name : String)
  | resolvedClass (c : KClass)
  | methodref (classIdx natIdx : Nat)
  | interfaceMethodref (classIdx natIdx : Nat)
  | fieldref (classIdx natIdx : Nat)
  | unknown (tag : Nat)

/-- Constant-pool tag numbers (`constants.h`; the JVM-standard values, with
the kaffe-internal `CONSTANT_ResolvedClass`; only used for equality tests and
error-message formatting). -/
def CPEntry.tag : CPEntry → Nat
  | .utf8 _ => 1
  | .nameAndType _ _ => 12
  | .classRef _ => 7
  | .resolvedClass _ => 20
  | .methodref _ _ => 10
  | .interfaceMethodref _ _ => 11
  | .fieldref _ _ => 9
  | .unknown t => t

/-- A constant pool is the `tags`/`data` pair, one entry per index. -/
abbrev CPool : Type := List CPEntry

/-- Read constant-pool slot `idx` (`pool->tags[idx]` / `pool->data[idx]`);
an out-of-range read is garbage, modelled as an `unknown` tag. -/
def cpGet (pool : CPool) (idx : Nat) : CPEntry :=
  List.getD pool idx (CPEntry.unknown 0)

/-- Overwrite constant-pool slot `idx`. -/
def cpSet (pool : CPool) (idx : Nat) (e : CPEntry) : CPool :=
  List.set pool idx e

/-- `WORD2UTF(pool->data[i])`: read the data word at `i` as a
`Utf8Const*`.  Defined (`some`) on `Utf8` entries and on unresolved
`Class` entries (whose data word is the `Utf8Const*` of the name); any other
read would be reinterpreting a non-utf8 word and is modelled as `none`. -/
def utf8At (pool : CPool) (i : Nat) : Option String :=
  match cpGet pool i with
  | .utf8 s => some s
  | .classRef s => some s
  | _ => none

/-- `WORD2UTF(pool->data[NAMEANDTYPE_NAME(ni, pool)])`. -/
def natName (pool : CPool) (ni : Nat) : Option String :=
  match cpGet pool ni with
  | .nameAndType a _ => utf8At pool a
  | _ => none

/-- `WORD2UTF(pool->data[NAMEANDTYPE_SIGNATURE(ni, pool)])`. -/
def natSig (pool : CPool) (ni : Nat) : Option String :=
  match cpGet pool ni with
  | .nameAndType _ b => utf8At pool b
  | _ => none

/-- The interned name of constructors. -/
def constructor_name : String := "<init>"

mutual
/-- Modelled from the spec: the external subtype test `instanceof`
(soft.c, not among the sources) — "`context` is a subtype of the target
class": reflexive walk of the superclass chain and the stored interface
lists, classes compared by canonical name. -/
def instanceofK (target : String) : KClass → Bool
  | .mk n _ _ sup ifs _ _ =>
      n == target || instanceofSup target sup || instanceofList target ifs

def instanceofSup (target : String) : Option KClass → Bool
  | none => false
  | some c => instanceofK target c

def instanceofList (target : String) : List KClass → Bool
  | [] => false
  | c :: cs => instanceofK target c || instanceofList target cs
end

/-- Message of the wrong-tag failure in `getMethodSignatureClass`:
`"method name unknown, tag = %d"`. -/
def wrongTagMethodMsg (t : Nat) : String :=
  String.append ("method name unknown, tag = ") (toString t)

/-- Message of the wrong-tag failure in `getField`: `"tag was %d"`. -/
def wrongTagFieldMsg (t : Nat) : String :=
  String.append ("tag was ") (toString t)

/-- Scan of the own method table of one class
(`for (mptr = CLASS_METHODS(class); --n >= 0; ++mptr)`), returning the
matched method (after the abstract patch) and the updated table.  On a
match that is abstract and whose declaring class is not an interface,
`SET_METHOD_NATIVECODE(mptr, throwAbstractMethodError)` and
`mptr->accflags |= ACC_NATIVE` are applied to the record. -/
def findMethodLocalAux (classIsIface : Bool) (name signature : String) :
    List KMethod → Option KMethod × List KMethod
  | [] => (none, [])
  | m :: rest =>
      if m.name = name ∧ m.signature = signature then
        let m' :=
          if m.accflags.testBit accAbstractBit ∧ ¬ classIsIface then
            { m with ncode := NCode.abstractMethodTrap,
                     accflags := m.accflags ||| (2 ^ accNativeBit) }
          else m
        (some m', m' :: rest)
      else
        let r := findMethodLocalAux classIsIface name signature rest
        (r.1, m :: r.2)

/-- `findMethodLocal`: exact (name, signature) lookup in the own
method table of `class`, with the abstract-method-trap patch; returns the found
method (as observed through the returned pointer, i.e. after the patch)
and the class with its updated method table. -/
def findMethodLocal (c : KClass) (name signature : String) :
    Option KMethod × KClass :=
  let r := findMethodLocalAux c.isIface name signature c.methods
  (r.1, c.withMethods r.2)

/-- The body of the superclass walk of `getMethodSignatureClass`:
`findMethodLocal` on the current class, else continue with its
superclass. -/
def searchSuperC (name signature : String) : KClass → Option KMethod
  | KClass.mk nm a st sup ifs ms fs =>
      match (findMethodLocal (KClass.mk nm a st sup ifs ms fs) name
               signature).1 with
      | some m => some m
      | none =>
          match sup with
          | none => none
          | some sc => searchSuperC name signature sc

/-- The superclass walk of `getMethodSignatureClass`
(`for (; class != 0; class = class->superclass)`), stopping at the first
`findMethodLocal` match. -/
def searchSuper (name signature : String) : Option KClass → Option KMethod
  | none => none
  | some c => searchSuperC name signature c

/-- The interface scan of `getMethodSignatureClass`
(`for (i = class->total_interface_len - 1; i >= 0; i--)`): the stored
interface list is scanned from the last element down to the first,
stopping at the first `findMethodLocal` match; it never recurses into
the own interface list or superclass of a scanned interface. -/
def scanIfacesFromEnd (name signature : String) :
    List KClass → Option KMethod
  | [] => none
  | c :: cs =>
      match scanIfacesFromEnd name signature cs with
      | some m => some m
      | none => (findMethodLocal c name signature).1

/-- `getClass` (lookup.c): resolve the `Class` constant-pool entry `idx`
of class `this`.  `loadClassExt`/`loadArrayExt` are the external
class-loading collaborator, already parameterized by the loader of `this`.
Returns the result, the updated pool, and whether the external loader was
invoked.  The lock/re-read dance of the C code serializes concurrent
writers and is identity in this sequential model. -/
def getClass (idx : Nat) (pool : CPool)
    (loadClassExt loadArrayExt : String → Except KError KClass) :
    Except KError KClass × CPool × Bool :=
  match cpGet pool idx with
  | .resolvedClass c => (Except.ok c, pool, false)
  | .classRef name =>
      let res :=
        if name.take 1 == "[" then loadArrayExt name else loadClassExt name
      match res with
      | Except.error e => (Except.error e, pool, true)
      | Except.ok c =>
          (Except.ok c, cpSet pool idx (CPEntry.resolvedClass c), true)
  | _ =>
      (Except.error ⟨"java.lang.ClassFormatError", "", true⟩, pool, false)

/-- The call binding (`callInfo`) filled in by `getMethodSignatureClass`.
Pointer fields are `Option` (`0`/NULL is `none`); `inArgs`/`outArgs`/
`rettype` are the `in`/`out`/`rettype` words written by
`countInsAndOuts`. -/
structure callInfo where
  cls : Option KClass
  method : Option KMethod
  signature : Option String
  name : Option String
  cname : Option String
  inArgs : Nat
  outArgs : Nat
  rettype : Nat

/-- `getMethodSignatureClass` (lookup.c): resolve the
`Methodref`/`InterfaceMethodref` entry `idx` of class `this`.

`loadClass` is the eager flag of the C signature; the external
collaborators are the class loaders (as in `getClass`) and
`countInsAndOuts` (support.c, not among the sources), an oracle mapping a
signature string to the (in, out, rettype) triple.

Returns the boolean result of the C function, the binding written through `call`
(threaded from the `call0` given by the caller), the updated pool, and the posted
error, if any. -/
def getMethodSignatureClass (idx : Nat) (this : KClass) (pool : CPool)
    (loadClass : Bool) (isSpecial : Nat)
    (loadClassExt loadArrayExt : String → Except KError KClass)
    (countInsAndOuts : String → Nat × Nat × Nat)
    (call0 : callInfo) :
    Bool × callInfo × CPool × Option KError :=
  let call : callInfo :=
    { call0 with cls := none, method := none, signature := none,
                 name := none, cname := none }
  match cpGet pool idx with
  | .methodref ci ni | .interfaceMethodref ci ni =>
      let name := natName pool ni
      let sig := natSig pool ni
      let call := { call with name := name, signature := sig }
      let countIO := countInsAndOuts (sig.getD "")
      if loadClass = true then
        match getClass ci pool loadClassExt loadArrayExt with
        | (Except.error e, pool', _) =>
            let call := { call with cname := utf8At pool' ci,
                                    inArgs := countIO.1,
                                    outArgs := countIO.2.1,
                                    rettype := countIO.2.2 }
            (false, call, pool', some e)
        | (Except.ok cls0, pool', _) =>
            let cls : Option KClass :=
              if isSpecial = 1 ∧
                 ¬ name.getD "" = constructor_name ∧
                 ¬ cls0.name = this.name ∧
                 instanceofK cls0.name this then
                this.superclass
              else some cls0
            let call := { call with cls := cls,
                                    cname := Option.map KClass.name cls,
                                    method := none }
            let mptr := searchSuper (name.getD "") (sig.getD "") cls
            let mptr :=
              match mptr, cls with
              | none, some c =>
                  if isSpecial = 2 then
                    scanIfacesFromEnd (name.getD "") (sig.getD "")
                      c.interfaces
                  else none
              | r, _ => r
            let call := { call with method := mptr,
                                    inArgs := countIO.1,
                                    outArgs := countIO.2.1,
                                    rettype := countIO.2.2 }
            (true, call, pool', none)
      else
        let call := { call with inArgs := countIO.1,
                                outArgs := countIO.2.1,
                                rettype := countIO.2.2 }
        (true, call, pool, none)
  | e =>
      (false, call, pool,
       some ⟨"java.lang.NoSuchMethodError", wrongTagMethodMsg e.tag, true⟩)

/-- The field binding (`fieldInfo`) filled in by `getField`; fields the C
code has not assigned keep the previous (stale) contents given by the caller. -/
structure fieldInfo where
  field : Option KField
  cls : Option KClass
  cname : Option String
  name : Option String
  signature : Option String

/-- `getField` (lookup.c): resolve the `Fieldref` entry `idx` of class
`this`.  `lookupClassField` (classMethod.c, not among the sources) is the
external single-class field lookup, which posts its own error on
failure. -/
def getField (idx : Nat) (_this : KClass) (pool : CPool) (isStatic : Bool)
    (loadClassExt loadArrayExt : String → Except KError KClass)
    (lookupClassField : KClass → String → Bool → Except KError KField)
    (ret0 : fieldInfo) :
    Bool × fieldInfo × CPool × Option KError :=
  match cpGet pool idx with
  | .fieldref ci ni =>
      match getClass ci pool loadClassExt loadArrayExt with
      | (Except.error e, pool', _) => (false, ret0, pool', some e)
      | (Except.ok cls0, pool', _) =>
          let ret := { ret0 with cname := some cls0.name,
                                 name := natName pool' ni,
                                 signature := natSig pool' ni }
          match lookupClassField cls0 ((natName pool' ni).getD "") isStatic with
          | Except.error e => (false, ret, pool', some e)
          | Except.ok fld =>
              (true, { ret with field := some fld, cls := some cls0 },
               pool', none)
  | e =>
      (false, ret0, pool,
       some ⟨"java.lang.NoSuchFieldError", wrongTagFieldMsg e.tag, true⟩)

/-- A class-pool entry (`classEntry`, classMethod.h): the `class` field as
consulted by `java_lang_Class_forName`. -/
structure classEntry where
  cls : Option KClass

/-- Does the FAILED-entry test of `java_lang_Class_forName` reject the entry?
`centry == 0 || (centry->class && centry->class->state == CSTATE_FAILED)`. -/
def forNameEntryBlocked (centry : Option classEntry) : Bool :=
  match centry with
  | none => true
  | some ce =>
      match ce.cls with
      | some c => c.state == CSTATE_FAILED
      | none => false

/-- The error-shaping step of `java_lang_Class_forName` (Class.c): given
the loader error `einfo`, the requested name `buf` (already converted
to pathname form), and the class-pool entry looked up for it, return the
error that is actually thrown.  `lookupClassEntry` is external; its
result is passed in as `centry`. -/
def forNameThrownError (einfo : KError) (buf : String)
    (centry : Option classEntry) : KError :=
  if einfo.isException ∧ einfo.classname = "java.lang.VerifyError" then
    ⟨"java.lang.ClassNotFoundException", einfo.mess, true⟩
  else if einfo.isException ∧
          einfo.classname = "java.lang.NoClassDefFoundError" then
    if forNameEntryBlocked centry then
      einfo
    else if buf.take 1 == "[" ∨ einfo.mess = buf then
      ⟨"java.lang.ClassNotFoundException", einfo.mess, true⟩
    else
      einfo
  else
    einfo

/-- The semantic error taxonomy of the spec (§7). -/
inductive SpecErrKind where
  | malformedConstantPool
  | classResolutionFailed
  | noSuchMethod
  | noSuchField
  | abstractMethodInvoked
  | outOfMemory
  | otherKind
  deriving DecidableEq, Repr

/-- Does `p` start the string `s`? -/
def msgStarts (p s : String) : Bool := List.isPrefixOf p.data s.data

/-- Modelled from the spec: the semantic classification of concrete error
descriptors by the taxonomy of §7 (the error-construction helpers of errors.h
are not among the sources).  "MalformedConstantPool (wrong tag at an
index)" covers exactly the wrong-tag posts: the `NoSuchMethodError` with
the "method name unknown, tag = %d" message, the `NoSuchFieldError` with
the "tag was %d" message, and the `ClassFormatError` of `getClass` on a
non-class tag. -/
def specKindOf (e : KError) : SpecErrKind :=
  if e.classname = "java.lang.NoSuchMethodError" then
    if msgStarts ("method name unknown, tag = ") e.mess then
      SpecErrKind.malformedConstantPool
    else SpecErrKind.noSuchMethod
  else if e.classname = "java.lang.NoSuchFieldError" then
    if msgStarts ("tag was ") e.mess then
      SpecErrKind.malformedConstantPool
    else SpecErrKind.noSuchField
  else if e.classname = "java.lang.ClassFormatError" then
    SpecErrKind.malformedConstantPool
  else if e.classname = "java.lang.AbstractMethodError" then
    SpecErrKind.abstractMethodInvoked
  else if e.classname = "java.lang.OutOfMemoryError" then
    SpecErrKind.outOfMemory
  else if e.classname = "java.lang.NoClassDefFoundError" ∨
          e.classname = "java.lang.VerifyError" ∨
          e.classname = "java.lang.ClassNotFoundException" then
    SpecErrKind.classResolutionFailed
  else SpecErrKind.otherKind

/-- Is the entry one of the two method-reference tags accepted by
`getMethodSignatureClass`? -/
def isMethodrefEntry : CPEntry → Bool
  | .methodref _ _ => true
  | .interfaceMethodref _ _ => true
  | _ => false

/-- Is the entry a `Fieldref`, as required by `getField`? -/
def isFieldrefEntry : CPEntry → Bool
  | .fieldref _ _ => true
  | _ => false

/-! Concrete fixtures.

A small class universe used by the witnesses and counterexamples:
a linear hierarchy `A → B → C` where each class defines `f()V`
(distinguished by their native-code words), a non-interface class `D`
with an abstract method `h()V`, and — modelled from the spec, since the
interface-list population policy lives in the class-loading collaborator
(classMethod.c, not among the sources) and §9 directs the
direct-list-as-stored behavior — a class `X implements I` whose stored
interface list is `[I]`, where interface `I` stores `[J]` and only the
interface `J` declares `g()V`. -/

def mAf : KMethod := ⟨"f", "()V", 1, NCode.code 10⟩

def mBf : KMethod := ⟨"f", "()V", 1, NCode.code 20⟩

def mCf : KMethod := ⟨"f", "()V", 1, NCode.code 30⟩

def clsA : KClass := KClass.mk "A" 0 CSTATE_LINKED none [] [mAf] []

def clsB : KClass := KClass.mk "B" 0 CSTATE_LINKED (some clsA) [] [mBf] []

def clsC : KClass := KClass.mk "C" 0 CSTATE_LINKED (some clsB) [] [mCf] []

/-- An abstract method (`ACC_ABSTRACT` set) with an empty code slot. -/
def mDh : KMethod := ⟨"h", "()V", 2 ^ accAbstractBit, NCode.unset⟩

/-- `mDh` as it looks after the abstract patch of `findMethodLocal`. -/
def mDhPatched : KMethod :=
  ⟨"h", "()V", 2 ^ accAbstractBit ||| 2 ^ accNativeBit,
   NCode.abstractMethodTrap⟩

def clsD : KClass := KClass.mk "D" 0 CSTATE_LINKED none [] [mDh] []

def mJg : KMethod := ⟨"g", "()V", 2 ^ accAbstractBit ||| 1, NCode.unset⟩

def clsJ : KClass :=
  KClass.mk "J" (2 ^ accInterfaceBit) CSTATE_LINKED none [] [mJg] []

def clsI : KClass :=
  KClass.mk "I" (2 ^ accInterfaceBit) CSTATE_LINKED none [clsJ] [] []

def clsX : KClass := KClass.mk "X" 0 CSTATE_LINKED none [clsI] [] []

/-- Constant pool of `C` holding at index 1 a `Methodref` to `B.f()V`
(class entry already resolved). -/
def poolCtoB : CPool :=
  [CPEntry.unknown 0, CPEntry.methodref 2 3, CPEntry.resolvedClass clsB,
   CPEntry.nameAndType 4 5, CPEntry.utf8 "f", CPEntry.utf8 "()V"]

/-- Constant pool of `C` holding at index 1 a `Methodref` to `A.f()V`. -/
def poolCtoA : CPool :=
  [CPEntry.unknown 0, CPEntry.methodref 2 3, CPEntry.resolvedClass clsA,
   CPEntry.nameAndType 4 5, CPEntry.utf8 "f", CPEntry.utf8 "()V"]

/-- Constant pool of `X` holding at index 1 a `Methodref` to `X.g()V`. -/
def poolXg : CPool :=
  [CPEntry.unknown 0, CPEntry.methodref 2 3, CPEntry.resolvedClass clsX,
   CPEntry.nameAndType 4 5, CPEntry.utf8 "g", CPEntry.utf8 "()V"]

/-- Constant pool holding at index 1 a `Fieldref` to `A.x:I`. -/
def poolFieldA : CPool :=
  [CPEntry.unknown 0, CPEntry.fieldref 2 3, CPEntry.resolvedClass clsA,
   CPEntry.nameAndType 4 5, CPEntry.utf8 "x", CPEntry.utf8 "I"]

/-- Constant pool holding at index 1 an unresolved `Class` entry. -/
def poolUnresolved : CPool :=
  [CPEntry.unknown 0, CPEntry.classRef "A"]

/-- Constant pool holding at index 1 a `Methodref` to `f()V` on the
unresolvable class `Z`. -/
def poolCfail : CPool :=
  [CPEntry.unknown 0, CPEntry.methodref 2 3, CPEntry.classRef "Z",
   CPEntry.nameAndType 4 5, CPEntry.utf8 "f", CPEntry.utf8 "()V"]

/-- Constant pool holding at index 1 a `Fieldref` to `x:I` on the
unresolvable class `Z`. -/
def poolFieldFail : CPool :=
  [CPEntry.unknown 0, CPEntry.fieldref 2 3, CPEntry.classRef "Z",
   CPEntry.nameAndType 4 5, CPEntry.utf8 "x", CPEntry.utf8 "I"]

/-- A class-loading collaborator that fails every request. -/
def failLoader : String → Except KError KClass :=
  fun n => Except.error ⟨"java.lang.NoClassDefFoundError", n, true⟩

/-- A class-loading collaborator that answers every request with `A`. -/
def okLoaderA : String → Except KError KClass :=
  fun _ => Except.ok clsA

/-- A concrete stand-in for `countInsAndOuts`. -/
def countIOfix : String → Nat × Nat × Nat :=
  fun s => (s.length, 1, 2)

/-- A caller binding holding stale values in every field. -/
def call0stale : callInfo :=
  ⟨some clsA, some mAf, some "stale", some "stale", some "stale", 7, 8, 9⟩

/-- A caller field binding holding stale values in every field. -/
def ret0stale : fieldInfo :=
  ⟨some ⟨"stale", 0⟩, some clsA, some "stale", some "stale", some "stale"⟩

/-- A `lookupClassField` collaborator that fails every request. -/
def fieldLookupFail : KClass → String → Bool → Except KError KField :=
  fun _ n _ => Except.error ⟨"java.lang.NoSuchFieldError", n, true⟩

/-- A `lookupClassField` collaborator that answers every request. -/
def fieldLookupOk : KClass → String → Bool → Except KError KField :=
  fun _ n _ => Except.ok ⟨n, 1⟩

/-! Helper lemmas. -/

theorem testBit_abstract_lor_native (a : Nat) :
    (a ||| 2 ^ accNativeBit).testBit accAbstractBit =
      a.testBit accAbstractBit := by
  rw [Nat.testBit_lor,
      show Nat.testBit (2 ^ accNativeBit) accAbstractBit = false by decide,
      Bool.or_false]

theorem testBit_native_lor_native (a : Nat) :
    (a ||| 2 ^ accNativeBit).testBit accNativeBit = true := by
  rw [Nat.testBit_lor,
      show Nat.testBit (2 ^ accNativeBit) accNativeBit = true by decide,
      Bool.or_true]

theorem lor_native_lor_native (a : Nat) :
    (a ||| 2 ^ accNativeBit) ||| 2 ^ accNativeBit = a ||| 2 ^ accNativeBit := by
  rw [Nat.lor_assoc, Nat.or_self]

theorem cpGet_lt_length (pool : CPool) (idx : Nat) (nm : String)
    (h : cpGet pool idx = CPEntry.classRef nm) : idx < pool.length := by
  by_contra hlt
  have hd : cpGet pool idx = CPEntry.unknown 0 := by
    unfold cpGet
    rw [List.getD_eq_getElem?_getD, List.getElem?_eq_none (by omega)]
    rfl
  rw [hd] at h
  exact CPEntry.noConfusion h

theorem cpGet_cpSet_self (pool : CPool) (idx : Nat) (e : CPEntry)
    (h : idx < pool.length) : cpGet (cpSet pool idx e) idx = e := by
  unfold cpGet cpSet
  rw [List.getD_eq_getElem?_getD, List.getElem?_set_eq_of_lt _ h]
  rfl

/-- C2: resolving a `Class` constant-pool slot caches only success: a
failed external load returns the loader error with the slot unchanged
(a later call loads again), while a successful load stores
`ResolvedClass` in the slot, after which every call returns the cached
class without invoking the loader. -/
theorem getClass_slot_caching (idx : Nat) (pool : CPool) (nm : String)
    (lc la : String → Except KError KClass)
    (h : cpGet pool idx = CPEntry.classRef nm) :
    (∀ e : KError,
        (if nm.take 1 == "[" then la nm else lc nm) = Except.error e →
        getClass idx pool lc la = (Except.error e, pool, true)) ∧
    (∀ c : KClass,
        (if nm.take 1 == "[" then la nm else lc nm) = Except.ok c →
        getClass idx pool lc la =
          (Except.ok c, cpSet pool idx (CPEntry.resolvedClass c), true) ∧
        getClass idx (cpSet pool idx (CPEntry.resolvedClass c)) lc la =
          (Except.ok c, cpSet pool idx (CPEntry.resolvedClass c), false)) := by
  refine ⟨?_, ?_⟩
  · intro e he
    simp only [getClass, h, he]
  · intro c hc
    refine ⟨?_, ?_⟩
    · simp only [getClass, h, hc]
    · have hlt := cpGet_lt_length pool idx nm h
      simp only [getClass,
        cpGet_cpSet_self pool idx (CPEntry.resolvedClass c) hlt]

/-- C2 witness: a concrete unresolved `Class` slot, first with a failing
loader (error propagated, slot untouched, loader invoked), then with a
succeeding loader (slot resolved, second call a pure cache hit). -/
theorem getClass_slot_caching_witness :
    getClass 1 poolUnresolved failLoader failLoader =
      (Except.error ⟨"java.lang.NoClassDefFoundError", "A", true⟩,
       poolUnresolved, true) ∧
    getClass 1 poolUnresolved okLoaderA failLoader =
      (Except.ok clsA, cpSet poolUnresolved 1 (CPEntry.resolvedClass clsA),
       true) ∧
    getClass 1 (cpSet poolUnresolved 1 (CPEntry.resolvedClass clsA))
        okLoaderA failLoader =
      (Except.ok clsA, cpSet poolUnresolved 1 (CPEntry.resolvedClass clsA),
       false) := by
  refine ⟨(getClass_slot_caching 1 poolUnresolved "A" failLoader failLoader
      rfl).1 _ rfl, ?_, ?_⟩
  · exact ((getClass_slot_caching 1 poolUnresolved "A" okLoaderA failLoader
      rfl).2 clsA rfl).1
  · exact ((getClass_slot_caching 1 poolUnresolved "A" okLoaderA failLoader
      rfl).2 clsA rfl).2

/-- C4: the error thrown by `forName` is the upgraded
`ClassNotFoundException` exactly when the loader error is a
`VerifyError`, or a `NoClassDefFoundError` whose message names the
requested class (or the requested name is an array name) and whose class
entry is not already terminally failed; every other error — in
particular one concerning a dependency class — is thrown unchanged. -/
theorem forName_error_upgrade (e : KError) (buf : String)
    (ce : Option classEntry) :
    (forNameThrownError e buf ce ≠ e ↔
       e.isException = true ∧
         (e.classname = "java.lang.VerifyError" ∨
           (e.classname = "java.lang.NoClassDefFoundError" ∧
             forNameEntryBlocked ce = false ∧
             (buf.take 1 = "[" ∨ e.mess = buf)))) ∧
    (forNameThrownError e buf ce = e ∨
       forNameThrownError e buf ce =
         ⟨"java.lang.ClassNotFoundException", e.mess, true⟩) := by
  unfold forNameThrownError
  split_ifs with h1 h2 h3 h4
  · refine ⟨⟨fun _ => ⟨h1.1, Or.inl h1.2⟩, fun _ hup => ?_⟩, Or.inr rfl⟩
    have hc : e.classname = "java.lang.ClassNotFoundException" :=
      congrArg KError.classname hup.symm
    exact absurd (h1.2.symm.trans hc) (by decide)
  · refine ⟨⟨fun hne => absurd rfl hne, fun hr _ => ?_⟩, Or.inl rfl⟩
    rcases hr.2 with hv | hn
    · exact h1 ⟨hr.1, hv⟩
    · rw [hn.2.1] at h3
      exact absurd h3 (by decide)
  · refine ⟨⟨fun _ => ?_, fun _ hup => ?_⟩, Or.inr rfl⟩
    · refine ⟨h2.1, Or.inr ⟨h2.2, by simpa using h3, ?_⟩⟩
      rcases h4 with ha | hm
      · exact Or.inl (by simpa using ha)
      · exact Or.inr hm
    · have hc : e.classname = "java.lang.ClassNotFoundException" :=
        congrArg KError.classname hup.symm
      exact absurd (h2.2.symm.trans hc) (by decide)
  · refine ⟨⟨fun hne => absurd rfl hne, fun hr _ => ?_⟩, Or.inl rfl⟩
    rcases hr.2 with hv | hn
    · exact absurd (hv.symm.trans h2.2) (by decide)
    · rcases hn.2.2 with ha | hm
      · exact h4 (Or.inl (by simpa using ha))
      · exact h4 (Or.inr hm)
  · refine ⟨⟨fun hne => absurd rfl hne, fun hr _ => ?_⟩, Or.inl rfl⟩
    rcases hr.2 with hv | hn
    · exact h1 ⟨hr.1, hv⟩
    · exact h2 ⟨hr.1, hn.1⟩

theorem msgStarts_append (p q : String) :
    msgStarts p (String.append p q) = true := by
  cases p with
  | mk pd =>
    cases q with
    | mk qd =>
      show List.isPrefixOf pd (pd ++ qd) = true
      rw [List.isPrefixOf_iff_prefix]
      exact List.prefix_append pd qd

theorem specKindOf_wrongTagMethod (t : Nat) :
    specKindOf ⟨"java.lang.NoSuchMethodError", wrongTagMethodMsg t, true⟩ =
      SpecErrKind.malformedConstantPool := by
  simp [specKindOf, wrongTagMethodMsg, msgStarts_append]

theorem specKindOf_wrongTagField (t : Nat) :
    specKindOf ⟨"java.lang.NoSuchFieldError", wrongTagFieldMsg t, true⟩ =
      SpecErrKind.malformedConstantPool := by
  simp [specKindOf, wrongTagFieldMsg, msgStarts_append]

/-- C5: a wrong tag at the referenced index makes method resolution
(tag neither `Methodref` nor `InterfaceMethodref`) and field resolution
(tag not `Fieldref`) fail with an error of the `MalformedConstantPool`
kind, leaving the binding unpopulated. -/
theorem wrongTag_malformedConstantPool (idx : Nat) (this : KClass)
    (pool : CPool) (isSpecial : Nat)
    (lc la : String → Except KError KClass)
    (cio : String → Nat × Nat × Nat) (call0 : callInfo)
    (idx2 : Nat) (this2 : KClass) (pool2 : CPool) (isStatic : Bool)
    (lkp : KClass → String → Bool → Except KError KField)
    (ret0 : fieldInfo)
    (hm : isMethodrefEntry (cpGet pool idx) = false)
    (hf : isFieldrefEntry (cpGet pool2 idx2) = false) :
    ((getMethodSignatureClass idx this pool true isSpecial lc la cio
         call0).1 = false ∧
     Option.map specKindOf
       (getMethodSignatureClass idx this pool true isSpecial lc la cio
          call0).2.2.2 = some SpecErrKind.malformedConstantPool ∧
     (getMethodSignatureClass idx this pool true isSpecial lc la cio
        call0).2.1.cls = none ∧
     (getMethodSignatureClass idx this pool true isSpecial lc la cio
        call0).2.1.method = none ∧
     (getMethodSignatureClass idx this pool true isSpecial lc la cio
        call0).2.1.signature = none ∧
     (getMethodSignatureClass idx this pool true isSpecial lc la cio
        call0).2.1.name = none ∧
     (getMethodSignatureClass idx this pool true isSpecial lc la cio
        call0).2.1.cname = none) ∧
    ((getField idx2 this2 pool2 isStatic lc la lkp ret0).1 = false ∧
     Option.map specKindOf
       (getField idx2 this2 pool2 isStatic lc la lkp ret0).2.2.2 =
         some SpecErrKind.malformedConstantPool ∧
     (getField idx2 this2 pool2 isStatic lc la lkp ret0).2.1 = ret0) := by
  refine ⟨?_, ?_⟩
  · cases hcp : cpGet pool idx <;>
      simp_all [isMethodrefEntry, getMethodSignatureClass,
        specKindOf_wrongTagMethod]
  · cases hcp : cpGet pool2 idx2 <;>
      simp_all [isFieldrefEntry, getField, specKindOf_wrongTagField]

/-- C5 witness: method resolution applied to a `Fieldref` index and field
resolution applied to a `Methodref` index. -/
theorem wrongTag_malformedConstantPool_witness :
    ((getMethodSignatureClass 1 clsC poolFieldA true 0 failLoader failLoader
         countIOfix call0stale).1 = false ∧
     Option.map specKindOf
       (getMethodSignatureClass 1 clsC poolFieldA true 0 failLoader
          failLoader countIOfix call0stale).2.2.2 =
         some SpecErrKind.malformedConstantPool) ∧
    ((getField 1 clsC poolCtoB false failLoader failLoader fieldLookupFail
         ret0stale).1 = false ∧
     Option.map specKindOf
       (getField 1 clsC poolCtoB false failLoader failLoader
          fieldLookupFail ret0stale).2.2.2 =
         some SpecErrKind.malformedConstantPool ∧
     (getField 1 clsC poolCtoB false failLoader failLoader fieldLookupFail
        ret0stale).2.1 = ret0stale) := by
  have h := wrongTag_malformedConstantPool 1 clsC poolFieldA 0 failLoader
    failLoader countIOfix call0stale 1 clsC poolCtoB false fieldLookupFail
    ret0stale rfl rfl
  exact ⟨⟨h.1.1, h.1.2.1⟩, h.2⟩

/-- C9: `getMethodSignatureClass` nulls all five binding output fields up
front, so on the wrong-tag failure path the binding of the caller holds only
nulls in those fields, whatever stale values it held before the call. -/
theorem wrongTag_binding_all_null (idx : Nat) (this : KClass)
    (pool : CPool) (loadCls : Bool) (isSpecial : Nat)
    (lc la : String → Except KError KClass)
    (cio : String → Nat × Nat × Nat) (call0 : callInfo)
    (hm : isMethodrefEntry (cpGet pool idx) = false) :
    (getMethodSignatureClass idx this pool loadCls isSpecial lc la cio
       call0).2.1 =
      { call0 with cls := none, method := none, signature := none,
                   name := none, cname := none } := by
  cases hcp : cpGet pool idx <;>
    simp_all [isMethodrefEntry, getMethodSignatureClass]

/-- C9 witness: a caller binding full of stale values comes back all-null
on the wrong-tag path. -/
theorem wrongTag_binding_all_null_witness :
    (getMethodSignatureClass 1 clsC poolFieldA true 0 failLoader failLoader
       countIOfix call0stale).2.1 =
      { call0stale with cls := none, method := none, signature := none,
                        name := none, cname := none } :=
  wrongTag_binding_all_null 1 clsC poolFieldA true 0 failLoader failLoader
    countIOfix call0stale rfl

/-- C7 counterexample: on the wrong-tag failure path the binding does NOT
carry the name and signature of the referenced method — resolution of a
`Fieldref` index fails with `call.name` and `call.signature` both null,
against the claim that every failure return carries them. -/
theorem failure_binding_name_cex :
    (getMethodSignatureClass 1 clsC poolFieldA true 0 failLoader failLoader
       countIOfix call0stale).1 = false ∧
    (getMethodSignatureClass 1 clsC poolFieldA true 0 failLoader failLoader
       countIOfix call0stale).2.1.name = none ∧
    (getMethodSignatureClass 1 clsC poolFieldA true 0 failLoader failLoader
       countIOfix call0stale).2.1.signature = none :=
  ⟨rfl, rfl, rfl⟩

/-- C7 (amended): every method-resolution failure after the tag check —
that is, a failure of owning-class resolution — returns a binding that
carries the referenced name, signature, and the arities computed from
the signature, and propagates the loader error. -/
theorem classfail_binding_carries_name (idx : Nat) (this : KClass)
    (pool : CPool) (isSpecial : Nat)
    (lc la : String → Except KError KClass)
    (cio : String → Nat × Nat × Nat) (call0 : callInfo)
    (ci ni : Nat) (e : KError) (pool2 : CPool) (inv : Bool)
    (h1 : cpGet pool idx = CPEntry.methodref ci ni ∨
          cpGet pool idx = CPEntry.interfaceMethodref ci ni)
    (h4 : getClass ci pool lc la = (Except.error e, pool2, inv)) :
    (getMethodSignatureClass idx this pool true isSpecial lc la cio
       call0).1 = false ∧
    (getMethodSignatureClass idx this pool true isSpecial lc la cio
       call0).2.1.name = natName pool ni ∧
    (getMethodSignatureClass idx this pool true isSpecial lc la cio
       call0).2.1.signature = natSig pool ni ∧
    (getMethodSignatureClass idx this pool true isSpecial lc la cio
       call0).2.1.inArgs = (cio ((natSig pool ni).getD "")).1 ∧
    (getMethodSignatureClass idx this pool true isSpecial lc la cio
       call0).2.1.outArgs = (cio ((natSig pool ni).getD "")).2.1 ∧
    (getMethodSignatureClass idx this pool true isSpecial lc la cio
       call0).2.1.rettype = (cio ((natSig pool ni).getD "")).2.2 ∧
    (getMethodSignatureClass idx this pool true isSpecial lc la cio
       call0).2.2.2 = some e := by
  rcases h1 with h1 | h1 <;>
    simp_all [getMethodSignatureClass, h1, h4]

/-- C7 (amended) witness: a `Methodref` whose owning class `Z` cannot be
loaded still yields name `f`, signature `()V` and the arities. -/
theorem classfail_binding_carries_name_witness :
    (getMethodSignatureClass 1 clsC poolCfail true 0 failLoader failLoader
       countIOfix call0stale).1 = false ∧
    (getMethodSignatureClass 1 clsC poolCfail true 0 failLoader failLoader
       countIOfix call0stale).2.1.name = some "f" ∧
    (getMethodSignatureClass 1 clsC poolCfail true 0 failLoader failLoader
       countIOfix call0stale).2.1.signature = some "()V" ∧
    (getMethodSignatureClass 1 clsC poolCfail true 0 failLoader failLoader
       countIOfix call0stale).2.1.inArgs = 3 ∧
    (getMethodSignatureClass 1 clsC poolCfail true 0 failLoader failLoader
       countIOfix call0stale).2.2.2 =
      some ⟨"java.lang.NoClassDefFoundError", "Z", true⟩ := by
  have h := classfail_binding_carries_name 1 clsC poolCfail 0 failLoader
    failLoader countIOfix call0stale 2 3
    ⟨"java.lang.NoClassDefFoundError", "Z", true⟩ poolCfail true
    (Or.inl rfl) rfl
  exact ⟨h.1, h.2.1, h.2.2.1, h.2.2.2.1.trans (by decide),
         h.2.2.2.2.2.2⟩

/-- C1: in eager special-1 resolution, when the referenced method is not
a constructor, the resolved class is not the context class, and the
context is a subtype of the resolved class, the implementation search is
the superclass walk rooted at the superclass of the CONTEXT, not at the
resolved class. -/
theorem special1_retargets_to_superclass (idx : Nat) (this : KClass)
    (pool : CPool) (isSpecial : Nat)
    (lc la : String → Except KError KClass)
    (cio : String → Nat × Nat × Nat) (call0 : callInfo)
    (ci ni : Nat) (n s : String) (c : KClass) (pool2 : CPool) (inv : Bool)
    (hsp : isSpecial = 1)
    (h1 : cpGet pool idx = CPEntry.methodref ci ni ∨
          cpGet pool idx = CPEntry.interfaceMethodref ci ni)
    (h2 : natName pool ni = some n) (h3 : natSig pool ni = some s)
    (h4 : getClass ci pool lc la = (Except.ok c, pool2, inv))
    (h5 : n ≠ constructor_name)
    (h6 : c.name ≠ this.name)
    (h7 : instanceofK c.name this = true) :
    (getMethodSignatureClass idx this pool true isSpecial lc la cio
       call0).1 = true ∧
    (getMethodSignatureClass idx this pool true isSpecial lc la cio
       call0).2.1.method = searchSuper n s this.superclass := by
  rcases h1 with h1 | h1 <;>
    (simp only [getMethodSignatureClass, h1, h2, h3, Option.getD_some, h4]
     rw [if_pos (⟨hsp, h5, h6, h7⟩ :
       isSpecial = 1 ∧ ¬n = constructor_name ∧ ¬c.name = this.name ∧
         instanceofK c.name this = true)]
     refine ⟨rfl, ?_⟩
     rcases hms : searchSuper n s this.superclass with _ | m <;>
       rcases hsup : this.superclass with _ | sc <;>
       simp_all)

/-- C1 witness: the 3-class hierarchy `A → B → C`, each defining `f()V`;
the special-1 reference of `C` to `B.f()V` resolves to the
implementation in `B` (native-code word 20), not the override in `C`
(word 30). -/
theorem special1_retargets_to_superclass_witness :
    (getMethodSignatureClass 1 clsC poolCtoB true 1 failLoader failLoader
       countIOfix call0stale).1 = true ∧
    (getMethodSignatureClass 1 clsC poolCtoB true 1 failLoader failLoader
       countIOfix call0stale).2.1.method = some mBf ∧
    mBf ≠ mCf := by
  have h := special1_retargets_to_superclass 1 clsC poolCtoB 1 failLoader
    failLoader countIOfix call0stale 2 3 "f" "()V" clsB poolCtoB false
    rfl (Or.inl rfl) rfl rfl rfl (by decide) (by decide) (by decide)
  exact ⟨h.1, h.2.trans (by decide), by decide⟩

/-- C8 counterexample: the special-1 reference of `C` statically names
class `A` (the class entry in the pool resolves to `A`), yet the
successful binding records owning class `B` (the superclass of `C`),
not the statically
resolved class `A`. -/
theorem binding_class_static_cex :
    cpGet poolCtoA 2 = CPEntry.resolvedClass clsA ∧
    KClass.name clsA = "A" ∧
    (getMethodSignatureClass 1 clsC poolCtoA true 1 failLoader failLoader
       countIOfix call0stale).1 = true ∧
    Option.map KClass.name
      (getMethodSignatureClass 1 clsC poolCtoA true 1 failLoader failLoader
         countIOfix call0stale).2.1.cls = some "B" ∧
    (getMethodSignatureClass 1 clsC poolCtoA true 1 failLoader failLoader
       countIOfix call0stale).2.1.cname = some "B" :=
  ⟨rfl, rfl, rfl, rfl, rfl⟩

/-- C8 (amended): the owning class recorded in a successful eager binding
is the search root — the statically resolved class in every case except
special-1 resolutions meeting the retarget condition, where it is the
superclass of the context class. -/
theorem binding_class_is_search_root (idx : Nat) (this : KClass)
    (pool : CPool) (isSpecial : Nat)
    (lc la : String → Except KError KClass)
    (cio : String → Nat × Nat × Nat) (call0 : callInfo)
    (ci ni : Nat) (n s : String) (c : KClass) (pool2 : CPool) (inv : Bool)
    (h1 : cpGet pool idx = CPEntry.methodref ci ni ∨
          cpGet pool idx = CPEntry.interfaceMethodref ci ni)
    (h2 : natName pool ni = some n) (h3 : natSig pool ni = some s)
    (h4 : getClass ci pool lc la = (Except.ok c, pool2, inv)) :
    (isSpecial = 1 ∧ n ≠ constructor_name ∧ c.name ≠ this.name ∧
        instanceofK c.name this = true →
      (getMethodSignatureClass idx this pool true isSpecial lc la cio
         call0).2.1.cls = this.superclass) ∧
    (¬ (isSpecial = 1 ∧ n ≠ constructor_name ∧ c.name ≠ this.name ∧
          instanceofK c.name this = true) →
      (getMethodSignatureClass idx this pool true isSpecial lc la cio
         call0).2.1.cls = some c) := by
  rcases h1 with h1 | h1 <;>
    (simp only [getMethodSignatureClass, h1, h2, h3, Option.getD_some, h4]
     by_cases hc : isSpecial = 1 ∧ ¬n = constructor_name ∧
       ¬c.name = this.name ∧ instanceofK c.name this = true
     · rw [if_pos hc]
       exact ⟨fun _ => rfl, fun hnc => absurd hc hnc⟩
     · rw [if_neg hc]
       exact ⟨fun hcc => absurd hcc hc, fun _ => rfl⟩)

/-- C8 (amended) witness: with the retarget condition met the binding
records the superclass `B` of `C`; with special-1 off (mode 0) the same
reference records the statically resolved class. -/
theorem binding_class_is_search_root_witness :
    (getMethodSignatureClass 1 clsC poolCtoA true 1 failLoader failLoader
       countIOfix call0stale).2.1.cls = KClass.superclass clsC ∧
    (getMethodSignatureClass 1 clsC poolCtoA true 0 failLoader failLoader
       countIOfix call0stale).2.1.cls = some clsA := by
  have ha := (binding_class_is_search_root 1 clsC poolCtoA 1 failLoader
    failLoader countIOfix call0stale 2 3 "f" "()V" clsA poolCtoA false
    (Or.inl rfl) rfl rfl rfl).1
    ⟨rfl, by decide, by decide, by decide⟩
  have hb := (binding_class_is_search_root 1 clsC poolCtoA 0 failLoader
    failLoader countIOfix call0stale 2 3 "f" "()V" clsA poolCtoA false
    (Or.inl rfl) rfl rfl rfl).2 (fun hc => absurd hc.1 (by decide))
  exact ⟨ha, hb⟩

theorem scanIfacesFromEnd_mem (n s : String) (l : List KClass)
    (m : KMethod) (h : scanIfacesFromEnd n s l = some m) :
    ∃ i ∈ l, (findMethodLocal i n s).1 = some m := by
  induction l with
  | nil => exact absurd h (by simp [scanIfacesFromEnd])
  | cons c cs ih =>
    rw [scanIfacesFromEnd] at h
    cases hcs : scanIfacesFromEnd n s cs with
    | some m2 =>
        rw [hcs] at h
        obtain ⟨i, hi, hfind⟩ := ih (hcs.trans (by injection h; simp_all))
        exact ⟨i, List.mem_cons_of_mem c hi, hfind⟩
    | none =>
        rw [hcs] at h
        exact ⟨c, List.mem_cons_self c cs, h⟩

/-- C3: when the superclass walk finds nothing in special-2 mode, only
the stored interface list of the resolved class is scanned: the result is the
scan of that list, and any method it yields comes from the method table
of one of the listed interfaces themselves (the scan never recurses into
the superinterfaces of an interface). -/
theorem special2_scans_stored_interfaces (idx : Nat) (this : KClass)
    (pool : CPool) (isSpecial : Nat)
    (lc la : String → Except KError KClass)
    (cio : String → Nat × Nat × Nat) (call0 : callInfo)
    (ci ni : Nat) (n s : String) (c : KClass) (pool2 : CPool) (inv : Bool)
    (hsp : isSpecial = 2)
    (h1 : cpGet pool idx = CPEntry.methodref ci ni ∨
          cpGet pool idx = CPEntry.interfaceMethodref ci ni)
    (h2 : natName pool ni = some n) (h3 : natSig pool ni = some s)
    (h4 : getClass ci pool lc la = (Except.ok c, pool2, inv))
    (h6 : searchSuper n s (some c) = none) :
    (getMethodSignatureClass idx this pool true isSpecial lc la cio
       call0).1 = true ∧
    (getMethodSignatureClass idx this pool true isSpecial lc la cio
       call0).2.1.method = scanIfacesFromEnd n s c.interfaces ∧
    (∀ m, scanIfacesFromEnd n s c.interfaces = some m →
       ∃ i ∈ c.interfaces, (findMethodLocal i n s).1 = some m) := by
  rcases h1 with h1 | h1 <;>
    (simp only [getMethodSignatureClass, h1, h2, h3, Option.getD_some, h4,
       ite_true]
     rw [if_neg (fun hc => absurd (hc.1.symm.trans hsp) (by decide))]
     rw [h6]
     refine ⟨by trivial, ?_,
       fun m hm => scanIfacesFromEnd_mem n s c.interfaces m hm⟩
     simp [hsp])

/-- C3 witness: `X implements I`, `I extends J`, only `J` declares
`g()V`; special-2 resolution of the reference of `X` to `g()V` finds no
method (`J` is never scanned). -/
theorem special2_scans_stored_interfaces_witness :
    (getMethodSignatureClass 1 clsX poolXg true 2 failLoader failLoader
       countIOfix call0stale).1 = true ∧
    (getMethodSignatureClass 1 clsX poolXg true 2 failLoader failLoader
       countIOfix call0stale).2.1.method = none := by
  have h := special2_scans_stored_interfaces 1 clsX poolXg 2 failLoader
    failLoader countIOfix call0stale 2 3 "g" "()V" clsX poolXg false
    rfl (Or.inl rfl) rfl rfl rfl (by decide)
  exact ⟨h.1, h.2.1.trans (by decide)⟩

theorem findMethodLocalAux_patched (b : Bool) (n s : String)
    (l : List KMethod) (m : KMethod)
    (h : (findMethodLocalAux b n s l).1 = some m)
    (hab : m.accflags.testBit accAbstractBit = true) (hb : b = false) :
    m.ncode = NCode.abstractMethodTrap ∧
    m.accflags.testBit accNativeBit = true := by
  induction l with
  | nil => exact absurd h (by simp [findMethodLocalAux])
  | cons mm rest ih =>
    by_cases hm : mm.name = n ∧ mm.signature = s
    · simp only [findMethodLocalAux, if_pos hm] at h
      by_cases hc : mm.accflags.testBit accAbstractBit = true ∧ ¬ b = true
      · rw [if_pos hc] at h
        have hme : m = (⟨mm.name, mm.signature,
            mm.accflags ||| 2 ^ accNativeBit,
            NCode.abstractMethodTrap⟩ : KMethod) :=
          (Option.some.inj h).symm
        subst hme
        exact ⟨rfl, testBit_native_lor_native mm.accflags⟩
      · rw [if_neg hc] at h
        have hme : m = mm := (Option.some.inj h).symm
        subst hme
        subst hb
        exact absurd ⟨hab, by decide⟩ hc
    · simp only [findMethodLocalAux, if_neg hm] at h
      exact ih h

theorem findMethodLocalAux_idem (b : Bool) (n s : String)
    (l : List KMethod) :
    findMethodLocalAux b n s (findMethodLocalAux b n s l).2 =
      findMethodLocalAux b n s l := by
  induction l with
  | nil => rfl
  | cons mm rest ih =>
    by_cases hm : mm.name = n ∧ mm.signature = s
    · simp only [findMethodLocalAux, if_pos hm]
      by_cases hc : mm.accflags.testBit accAbstractBit = true ∧ ¬ b = true
      · rw [if_pos hc]
        simp only [findMethodLocalAux]
        rw [if_pos (show (⟨mm.name, mm.signature,
              mm.accflags ||| 2 ^ accNativeBit,
              NCode.abstractMethodTrap⟩ : KMethod).name = n ∧
            (⟨mm.name, mm.signature, mm.accflags ||| 2 ^ accNativeBit,
              NCode.abstractMethodTrap⟩ : KMethod).signature = s
            from hm)]
        rw [if_pos (show (⟨mm.name, mm.signature,
              mm.accflags ||| 2 ^ accNativeBit,
              NCode.abstractMethodTrap⟩ :
                KMethod).accflags.testBit accAbstractBit = true ∧
              ¬ b = true
            from ⟨(testBit_abstract_lor_native mm.accflags).trans hc.1,
                  hc.2⟩)]
        simp [lor_native_lor_native]
      · rw [if_neg hc]
        first
          | rfl
          | simp only [findMethodLocalAux, if_pos hm, if_neg hc]
    · simp only [findMethodLocalAux, if_neg hm, ih]

/-- C6: whenever `findMethodLocal` matches a method that is abstract
while the scanned (declaring) class is not an interface, the returned
record holds the abstract-method trap as native code and is marked
native; and re-running `findMethodLocal` on the updated class returns
the same method and leaves the method table unchanged (the patch is
idempotent). -/
theorem findMethodLocal_abstract_patch (c : KClass) (n s : String) :
    (∀ m, (findMethodLocal c n s).1 = some m →
        m.accflags.testBit accAbstractBit = true → c.isIface = false →
        m.ncode = NCode.abstractMethodTrap ∧
        m.accflags.testBit accNativeBit = true) ∧
    findMethodLocal (findMethodLocal c n s).2 n s =
      findMethodLocal c n s := by
  constructor
  · intro m hm hab hif
    exact findMethodLocalAux_patched c.isIface n s c.methods m hm hab hif
  · cases c with
    | mk nm a st sup ifs ms fs =>
      simp [findMethodLocal, KClass.withMethods, KClass.isIface,
        KClass.methods, KClass.accflags, findMethodLocalAux_idem]

/-- C6 witness: looking up abstract `h()V` in the non-interface class `D`
returns the record patched with the trap and the native flag, and a
second lookup is a no-op on the class. -/
theorem findMethodLocal_abstract_patch_witness :
    (findMethodLocal clsD "h" "()V").1 = some mDhPatched ∧
    mDhPatched.ncode = NCode.abstractMethodTrap ∧
    mDhPatched.accflags.testBit accNativeBit = true ∧
    findMethodLocal (findMethodLocal clsD "h" "()V").2 "h" "()V" =
      findMethodLocal clsD "h" "()V" := by
  have h := findMethodLocal_abstract_patch clsD "h" "()V"
  have hp := h.1 mDhPatched (by decide) (by decide) (by decide)
  exact ⟨by decide, hp.1, hp.2, h.2⟩

/-- C10: `getField` writes nothing into the `fieldInfo` of the caller on the
wrong-tag and class-resolution failure paths; on a no-such-field failure
it has already written the name of the resolved class and the referenced name
and signature, while leaving the `field` and `class` members untouched. -/
theorem getField_write_discipline (idx : Nat) (this2 : KClass)
    (pool : CPool) (isStatic : Bool)
    (lc la : String → Except KError KClass)
    (lkp : KClass → String → Bool → Except KError KField)
    (ret0 : fieldInfo) (ci ni : Nat) :
    (isFieldrefEntry (cpGet pool idx) = false →
       (getField idx this2 pool isStatic lc la lkp ret0).1 = false ∧
       (getField idx this2 pool isStatic lc la lkp ret0).2.1 = ret0) ∧
    (cpGet pool idx = CPEntry.fieldref ci ni →
      (∀ e pool2 inv,
         getClass ci pool lc la = (Except.error e, pool2, inv) →
         (getField idx this2 pool isStatic lc la lkp ret0).1 = false ∧
         (getField idx this2 pool isStatic lc la lkp ret0).2.1 = ret0 ∧
         (getField idx this2 pool isStatic lc la lkp ret0).2.2.2 =
           some e) ∧
      (∀ c pool2 inv e2,
         getClass ci pool lc la = (Except.ok c, pool2, inv) →
         lkp c ((natName pool2 ni).getD "") isStatic =
           Except.error e2 →
         (getField idx this2 pool isStatic lc la lkp ret0).1 = false ∧
         (getField idx this2 pool isStatic lc la lkp ret0).2.1.cname =
           some c.name ∧
         (getField idx this2 pool isStatic lc la lkp ret0).2.1.name =
           natName pool2 ni ∧
         (getField idx this2 pool isStatic lc la lkp
            ret0).2.1.signature = natSig pool2 ni ∧
         (getField idx this2 pool isStatic lc la lkp ret0).2.1.field =
           ret0.field ∧
         (getField idx this2 pool isStatic lc la lkp ret0).2.1.cls =
           ret0.cls)) := by
  refine ⟨?_, fun hcp => ⟨?_, ?_⟩⟩
  · intro hf
    cases hcpe : cpGet pool idx <;>
      simp_all [isFieldrefEntry, getField]
  · intro e pool2 inv he
    simp [getField, hcp, he]
  · intro c pool2 inv e2 hc hl
    simp [getField, hcp, hc, hl]

/-- C10 witness: a `Fieldref` to `A.x:I` whose single-class lookup fails
leaves `field`/`class` stale while `cname`/`name`/`signature` are
written; a wrong-tag index and a failing class load write nothing. -/
theorem getField_write_discipline_witness :
    ((getField 1 clsA poolCtoB true failLoader failLoader fieldLookupFail
        ret0stale).2.1 = ret0stale) ∧
    ((getField 1 clsA poolFieldFail true failLoader failLoader
        fieldLookupFail ret0stale).2.1 = ret0stale) ∧
    ((getField 1 clsA poolFieldA true failLoader failLoader
        fieldLookupFail ret0stale).1 = false ∧
     (getField 1 clsA poolFieldA true failLoader failLoader
        fieldLookupFail ret0stale).2.1.cname = some "A" ∧
     (getField 1 clsA poolFieldA true failLoader failLoader
        fieldLookupFail ret0stale).2.1.name = some "x" ∧
     (getField 1 clsA poolFieldA true failLoader failLoader
        fieldLookupFail ret0stale).2.1.field = ret0stale.field ∧
     (getField 1 clsA poolFieldA true failLoader failLoader
        fieldLookupFail ret0stale).2.1.cls = ret0stale.cls) := by
  have h1 := ((getField_write_discipline 1 clsA poolCtoB true failLoader
    failLoader fieldLookupFail ret0stale 2 3).1 rfl).2
  have h2 := ((getField_write_discipline 1 clsA poolFieldFail true
    failLoader failLoader fieldLookupFail ret0stale 2 3).2 rfl).1
    ⟨"java.lang.NoClassDefFoundError", "Z", true⟩ poolFieldFail true rfl
  have h3 := ((getField_write_discipline 1 clsA poolFieldA true failLoader
    failLoader fieldLookupFail ret0stale 2 3).2 rfl).2 clsA poolFieldA
    false ⟨"java.lang.NoSuchFieldError", "x", true⟩ rfl rfl
  exact ⟨h1, h2.2.1, h3.1, h3.2.1, h3.2.2.1, h3.2.2.2.2.1, h3.2.2.2.2.2⟩

end Kaffe
